import Mathlib

/-!
Verification development for the `lock` package of redlock-go.

The package implements a RedLock-style quorum lock over a fleet of
key-value store endpoints.  The definitions below are a shallow embedding
of `lock/red_lock.go` (`New`, `Acquire`, `Release`) and `lock/errors.go`.

Modelling choices, all taken from the source:
* The sentinel errors of `errors.go` become constructors of `GoErr`;
  a Go `error` result is `Option GoErr` (`none` = nil).
* A Go context is reduced to the one observable the code consults:
  whether `ctx.Deadline()` reports a deadline, plus (for the main
  select loop) which signal fires first and, when the context fires,
  which of the two context errors `ctx.Err()` yields.
* `Acquire`'s tally is maintained by a single observer goroutine that
  folds over the outcome stream in arrival order and stops at quorum;
  `observerRun` is that fold.  The arrival order is a parameter.
* `Release` has no single observer: its tally is updated by the workers
  themselves.  It is modelled as a small-step interleaved machine
  (`relStep` / `relRun`) driven by an explicit schedule, with one atomic
  step per shared-memory access of a worker, the waiter goroutine and
  the main select loop.
* The concurrency gate `requestSem` is used by the round code as a
  counting semaphore (`<-r.requestSem` to acquire, `r.requestSem <- ...`
  to release); inside a round it is modelled as the permit counter the
  usage pattern intends, with the `maxConcurrencyAllowed` permits the
  constructor is written to provide.  The constructor itself is modelled
  separately (`New`), where the channel's actual capacity (`make(chan
  struct{})`, i.e. zero) matters.
-/

/-- The sentinel errors of `lock/errors.go`, plus the two errors a Go
context can report from `ctx.Err()`. -/
inductive GoErr where
  | errUnableToAcquireLock
  | errUnableToReleaseLock
  | errContextWithDeadlineNeeded
  | deadlineExceeded
  | canceled
deriving DecidableEq

/-- The error a cancelled/expired context reports from `ctx.Err()`. -/
inductive CtxErr where
  | deadlineExceeded
  | canceled
deriving DecidableEq

/-- Embeds a context error into the common error type, verbatim. -/
def CtxErr.toGoErr : CtxErr → GoErr
  | CtxErr.deadlineExceeded => GoErr.deadlineExceeded
  | CtxErr.canceled => GoErr.canceled

/-- The one fact about the caller's context the deadline guard consults:
whether `ctx.Deadline()` reports a deadline. -/
structure GoContext where
  hasDeadline : Bool

/-- Which case of the main `select` loop fires first in a round:
the context's done channel (carrying `ctx.Err()`) or the round's
completion channel `done`. -/
inductive MainEvent where
  | ctxDone (e : CtxErr)
  | doneFired
deriving DecidableEq

/-- `quorum = len(r.clients)/2 + 1`, computed identically at the top of
`Acquire` and `Release` (Go integer division = floor). -/
def quorum (n : Nat) : Nat := n / 2 + 1

/-- Number of successful per-endpoint outcomes in a list. -/
def countTrue : List Bool → Nat
  | [] => 0
  | true :: rest => 1 + countTrue rest
  | false :: rest => countTrue rest

/-- The observer goroutine of `Acquire`: ranges over the outcome stream,
increments `acquiredCount` for each acquired outcome, and stops (after
closing `done`) the moment the new value equals `quorum`.  Returns the
final value of `acquiredCount`.  `c` is the running count. -/
def observerRun (q : Nat) : Nat → List Bool → Nat
  | c, [] => c
  | c, true :: rest =>
    if c + 1 = q then c + 1 else observerRun q (c + 1) rest
  | c, false :: rest => observerRun q c rest

/-- `maxConcurrencyAllowed := 10` in `New`. -/
def maxConcurrencyAllowed : Nat := 10

/-- Capacity of `requestSem`: the constructor writes
`make(chan struct{})`, an unbuffered channel, so the capacity is 0. -/
def requestSemCap : Nat := 0

/-- The permit-filling loop of `New`: `k` sends remaining, `occ` values
currently buffered in the channel.  During `New` no other goroutine can
reference the channel, so a send can only complete by entering the
buffer; when the buffer is full the send blocks forever and the loop
never finishes (`none`). -/
def fillSem : Nat → Nat → Option Nat
  | 0, occ => some occ
  | k + 1, occ =>
    if occ < requestSemCap then fillSem k (occ + 1)
    else none

/-- The coordinator state `redLock` holds after construction. -/
structure RedLock where
  numClients : Nat
  lockDuration : Nat
  semOccupied : Nat
deriving DecidableEq

/-- `New(clients, lockDuration)`: builds the struct and then sends
`maxConcurrencyAllowed` permits into `requestSem`.  Returns `none` when
the filling loop blocks forever (the call never returns). -/
def New (numClients lockDuration : Nat) : Option RedLock :=
  match fillSem maxConcurrencyAllowed 0 with
  | some occ => some { numClients := numClients, lockDuration := lockDuration, semOccupied := occ }
  | none => none

/-- `Acquire(ctx, key)` of `red_lock.go`, for a round whose workers all
obtain their store outcome (`arrivals` = the per-endpoint `SetNX`
results in the order the observer receives them) and whose main select
loop sees `ev` first.  Mirrors the source: the deadline guard returns
`ErrContextWithDeadlineNeeded` before anything else runs; on `ctx.Done`
it returns `ctx.Err()`; on `done` it returns nil exactly when
`acquiredCount.Load() == int32(quorum)`. -/
def Acquire (ctx : GoContext) (_key : String) (arrivals : List Bool) (ev : MainEvent) : Option GoErr :=
  if ctx.hasDeadline = false then some GoErr.errContextWithDeadlineNeeded
  else
    match ev with
    | MainEvent.ctxDone e => some e.toGoErr
    | MainEvent.doneFired =>
      if observerRun (quorum arrivals.length) 0 arrivals = quorum arrivals.length then none
      else some GoErr.errUnableToAcquireLock

/-- Number of `SetNX` store calls an `Acquire` round issues: the
deadline guard returns before the worker loop, so a guard failure
issues none; in a round that runs to completion each of the `n` workers
performs exactly one `SetNX`. -/
def acquireStoreCalls (ctx : GoContext) (n : Nat) : Nat :=
  if ctx.hasDeadline then n else 0

theorem observerRun_eq_min (q : Nat) :
    ∀ (l : List Bool) (c : Nat), c < q → observerRun q c l = min q (c + countTrue l) := by
  intro l
  induction l with
  | nil =>
    intro c hc
    simp only [observerRun, countTrue, Nat.add_zero]
    omega
  | cons b rest ih =>
    intro c hc
    cases b with
    | true =>
      simp only [observerRun, countTrue]
      by_cases hq : c + 1 = q
      · rw [if_pos hq]
        omega
      · rw [if_neg hq, ih (c + 1) (by omega)]
        omega
    | false =>
      simp only [observerRun, countTrue]
      exact ih c hc

/-- Control point of one `Release` worker goroutine.
`start`: launched, has not yet acquired a gate permit.
`doDel`: permit acquired and the `releasedCount.Load() == int32(quorum)`
pre-check passed; about to call `client.Del`.
`tally`: `Del` returned; about to run the `result.Val() == 1` /
`releasedCount.Add(1)` block.
`releaseSem`: about to send the permit back on `requestSem`.
`finished b`: the goroutine returned; `b` records whether it put its
permit back before returning. -/
inductive WPhase where
  | start
  | doDel
  | tally
  | releaseSem
  | finished (releasedPermit : Bool)
deriving DecidableEq

/-- Shared state of one `Release` round: the per-worker control points,
`releasedCount`, the permit count of `requestSem`, how many times
`close(done)` has been executed (a second close is a runtime fault and
halts the machine), the WaitGroup counter of finished workers, whether
the waiter goroutine has run, the number of `Del` store calls issued,
and the value the main select loop returned (if it has). -/
structure RelState where
  workers : List WPhase
  releasedCount : Nat
  requestSem : Nat
  doneCloses : Nat
  wgDone : Nat
  waiterDone : Bool
  delCalls : Nat
  result : Option (Option GoErr)
deriving DecidableEq

/-- Initial state of a `Release` round over `n` endpoints: all workers
launched, counter zero, `done` open, and the gate holding the
`maxConcurrencyAllowed` permits the constructor is written to provide. -/
def relInit (n : Nat) : RelState :=
  { workers := List.replicate n WPhase.start
    releasedCount := 0
    requestSem := maxConcurrencyAllowed
    doneCloses := 0
    wgDone := 0
    waiterDone := false
    delCalls := 0
    result := none }

/-- `close(done)`.  Closing an already-closed channel is a runtime
fault; the machine records it by letting `doneCloses` reach 2, at which
point every step is disabled. -/
def closeDone (s : RelState) : RelState :=
  { s with doneCloses := s.doneCloses + 1 }

/-- One atomic step of one goroutine of a `Release` round.  Worker
steps carry the worker's index. -/
inductive RelLabel where
  | wSemPre (i : Nat)
  | wDel (i : Nat)
  | wTally (i : Nat)
  | wRel (i : Nat)
  | waiter
  | mainSel
deriving DecidableEq

/-- Small-step transition of a `Release` round, one label at a time.
`q` is the quorum, `delRes` the per-endpoint `Del` results (`true` iff
`result.Val() == 1`).  A label whose goroutine is not at the matching
control point, or whose action is blocked, leaves the state unchanged.
Mirrors `Release` of `red_lock.go`:
* `wSemPre i`: `<-r.requestSem` followed by the
  `releasedCount.Load() == int32(quorum)` pre-check, which on success
  runs `close(done); return` — returning without sending the permit
  back (the deferred `wg.Done()` still runs).
* `wDel i`: `client.Del(ctx, key)`.
* `wTally i`: `if result.Val() == 1 { if releasedCount.Add(1) ==
  int32(quorum) { close(done); return } }` — again returning without
  the permit on the quorum branch.
* `wRel i`: `r.requestSem <- struct{}{}` and the deferred `wg.Done()`.
* `waiter`: the goroutine running `wg.Wait()` then
  `select { case <-ctx.Done(); case <-done; default: close(done) }`
  (the round is uncancelled, so `ctx.Done` is never ready).
* `mainSel`: the main `for/select` loop, ready once `done` is closed:
  returns nil iff `releasedCount.Load() == int32(quorum)`, else
  `ErrUnableToReleaseLock`. -/
def relStep (q : Nat) (delRes : List Bool) (s : RelState) : RelLabel → RelState :=
  fun l =>
  if s.doneCloses ≥ 2 then s
  else
    match l with
    | RelLabel.wSemPre i =>
      match s.workers[i]? with
      | some WPhase.start =>
        if s.requestSem = 0 then s
        else
          if s.releasedCount = q then
            let s1 := closeDone { s with requestSem := s.requestSem - 1 }
            { s1 with workers := s1.workers.set i (WPhase.finished false),
                      wgDone := s1.wgDone + 1 }
          else
            { s with requestSem := s.requestSem - 1,
                     workers := s.workers.set i WPhase.doDel }
      | _ => s
    | RelLabel.wDel i =>
      match s.workers[i]? with
      | some WPhase.doDel =>
        { s with delCalls := s.delCalls + 1,
                 workers := s.workers.set i WPhase.tally }
      | _ => s
    | RelLabel.wTally i =>
      match s.workers[i]? with
      | some WPhase.tally =>
        if delRes.getD i false then
          if s.releasedCount + 1 = q then
            let s1 := closeDone { s with releasedCount := s.releasedCount + 1 }
            { s1 with workers := s1.workers.set i (WPhase.finished false),
                      wgDone := s1.wgDone + 1 }
          else
            { s with releasedCount := s.releasedCount + 1,
                     workers := s.workers.set i WPhase.releaseSem }
        else
          { s with workers := s.workers.set i WPhase.releaseSem }
      | _ => s
    | RelLabel.wRel i =>
      match s.workers[i]? with
      | some WPhase.releaseSem =>
        { s with requestSem := s.requestSem + 1,
                 workers := s.workers.set i (WPhase.finished true),
                 wgDone := s.wgDone + 1 }
      | _ => s
    | RelLabel.waiter =>
      if s.waiterDone then s
      else if s.wgDone = s.workers.length then
        let s1 := { s with waiterDone := true }
        if s1.doneCloses = 0 then closeDone s1 else s1
      else s
    | RelLabel.mainSel =>
      match s.result with
      | some _ => s
      | none =>
        if s.doneCloses ≠ 0 then
          { s with result := some (if s.releasedCount = q then none
                                   else some GoErr.errUnableToReleaseLock) }
        else s

/-- Runs a `Release` round over the endpoints whose `Del` results are
`delRes`, under the interleaving `sched`. -/
def relRun (delRes : List Bool) (sched : List RelLabel) : RelState :=
  sched.foldl (relStep (quorum delRes.length) delRes) (relInit delRes.length)

/-- `Release(ctx, key)` of `red_lock.go`: the deadline guard returns
`ErrContextWithDeadlineNeeded` before launching any worker (zero `Del`
calls); otherwise the round machine runs under `sched` and the pair is
(the main loop's return value if it returned, number of `Del` calls
issued). -/
def Release (ctx : GoContext) (_key : String) (delRes : List Bool) (sched : List RelLabel) :
    Option (Option GoErr) × Nat :=
  if ctx.hasDeadline = false then (some (some GoErr.errContextWithDeadlineNeeded), 0)
  else ((relRun delRes sched).result, (relRun delRes sched).delCalls)

/-- Interleaving of a `Release` round over five endpoints in which all
five workers pass the tally pre-check before any of them increments
`releasedCount`, so the tally overshoots the quorum. -/
def overshootSched : List RelLabel :=
  [RelLabel.wSemPre 0, RelLabel.wSemPre 1, RelLabel.wSemPre 2,
   RelLabel.wSemPre 3, RelLabel.wSemPre 4,
   RelLabel.wDel 0, RelLabel.wDel 1, RelLabel.wDel 2,
   RelLabel.wDel 3, RelLabel.wDel 4,
   RelLabel.wTally 0, RelLabel.wTally 1, RelLabel.wTally 2,
   RelLabel.wTally 3, RelLabel.wTally 4,
   RelLabel.wRel 0, RelLabel.wRel 1, RelLabel.wRel 3, RelLabel.wRel 4,
   RelLabel.waiter, RelLabel.mainSel]

/-- Interleaving of a `Release` round over three endpoints in which the
third worker acquires its permit only after the other two have already
reached quorum and closed `done`. -/
def lateWorkerSched : List RelLabel :=
  [RelLabel.wSemPre 0, RelLabel.wDel 0, RelLabel.wTally 0, RelLabel.wRel 0,
   RelLabel.wSemPre 1, RelLabel.wDel 1, RelLabel.wTally 1,
   RelLabel.wSemPre 2]

/-- Interleaving of a `Release` round over three endpoints that drains
fully with the quorum-reaching worker keeping its permit. -/
def leakSched : List RelLabel :=
  [RelLabel.wSemPre 0, RelLabel.wSemPre 1, RelLabel.wSemPre 2,
   RelLabel.wDel 0, RelLabel.wTally 0,
   RelLabel.wDel 1, RelLabel.wTally 1,
   RelLabel.wDel 2, RelLabel.wTally 2,
   RelLabel.wRel 0, RelLabel.wRel 2,
   RelLabel.waiter, RelLabel.mainSel]

/-- Interleaving over three all-successful endpoints where every worker
increments the tally before the main loop reads it (tally 3 ≠ quorum 2). -/
def orderSchedErr : List RelLabel :=
  [RelLabel.wSemPre 0, RelLabel.wSemPre 1, RelLabel.wSemPre 2,
   RelLabel.wDel 0, RelLabel.wTally 0,
   RelLabel.wDel 1, RelLabel.wTally 1,
   RelLabel.wDel 2, RelLabel.wTally 2,
   RelLabel.wRel 0, RelLabel.wRel 2,
   RelLabel.waiter, RelLabel.mainSel]

/-- Interleaving over the same three all-successful endpoints where the
main loop reads the tally while it still equals the quorum. -/
def orderSchedOk : List RelLabel :=
  [RelLabel.wSemPre 0, RelLabel.wSemPre 1, RelLabel.wSemPre 2,
   RelLabel.wDel 0, RelLabel.wDel 1, RelLabel.wDel 2,
   RelLabel.wTally 0, RelLabel.wTally 1, RelLabel.mainSel,
   RelLabel.wTally 2, RelLabel.wRel 0, RelLabel.wRel 2,
   RelLabel.waiter]

theorem relStep_nil_inv (l : RelLabel) (s : RelState)
    (hw : s.workers = []) (hc : s.releasedCount = 0) (hd : s.doneCloses ≤ 1)
    (hr : s.result = none ∨ s.result = some (some GoErr.errUnableToReleaseLock)) :
    (relStep (quorum 0) [] s l).workers = [] ∧
    (relStep (quorum 0) [] s l).releasedCount = 0 ∧
    (relStep (quorum 0) [] s l).doneCloses ≤ 1 ∧
    ((relStep (quorum 0) [] s l).result = none ∨
      (relStep (quorum 0) [] s l).result = some (some GoErr.errUnableToReleaseLock)) := by
  have hg : ¬ s.doneCloses ≥ 2 := by omega
  cases l with
  | wSemPre i => simp only [relStep, if_neg hg, hw, List.getElem?_nil]; exact ⟨trivial, hc, hd, hr⟩
  | wDel i => simp only [relStep, if_neg hg, hw, List.getElem?_nil]; exact ⟨trivial, hc, hd, hr⟩
  | wTally i => simp only [relStep, if_neg hg, hw, List.getElem?_nil]; exact ⟨trivial, hc, hd, hr⟩
  | wRel i => simp only [relStep, if_neg hg, hw, List.getElem?_nil]; exact ⟨trivial, hc, hd, hr⟩
  | waiter =>
    simp only [relStep, if_neg hg]
    by_cases h1 : s.waiterDone
    · rw [if_pos h1]; exact ⟨hw, hc, hd, hr⟩
    · rw [if_neg h1]
      by_cases h2 : s.wgDone = s.workers.length
      · rw [if_pos h2]
        by_cases h3 : s.doneCloses = 0
        · rw [if_pos h3]
          exact ⟨hw, hc, by simp [closeDone]; omega, hr⟩
        · rw [if_neg h3]
          exact ⟨hw, hc, hd, hr⟩
      · rw [if_neg h2]; exact ⟨hw, hc, hd, hr⟩
  | mainSel =>
    simp only [relStep, if_neg hg]
    cases hres : s.result with
    | some v => exact ⟨hw, hc, hd, hr⟩
    | none =>
      by_cases h1 : s.doneCloses ≠ 0
      · rw [if_pos h1]
        refine ⟨hw, hc, hd, Or.inr ?_⟩
        simp only [hc, quorum]
        norm_num
      · rw [if_neg h1]; exact ⟨hw, hc, hd, hr⟩

theorem relFold_nil_inv (sched : List RelLabel) :
    ∀ s : RelState, s.workers = [] → s.releasedCount = 0 → s.doneCloses ≤ 1 →
      (s.result = none ∨ s.result = some (some GoErr.errUnableToReleaseLock)) →
      ((sched.foldl (relStep (quorum 0) []) s).result = none ∨
        (sched.foldl (relStep (quorum 0) []) s).result
          = some (some GoErr.errUnableToReleaseLock)) := by
  induction sched with
  | nil => intro s _ _ _ hr; exact hr
  | cons l rest ih =>
    intro s hw hc hd hr
    have h := relStep_nil_inv l s hw hc hd hr
    rw [List.foldl_cons]
    exact ih _ h.1 h.2.1 h.2.2.1 h.2.2.2

/-- C1: for a coordinator with N ≥ 1 endpoints and a deadline-carrying
context, an `Acquire` round that runs to completion returns nil if and
only if at least `quorum = ⌊N/2⌋ + 1` endpoints accepted the
set-if-absent operation, and returns `ErrUnableToAcquireLock` when
fewer than `quorum` accepted. -/
theorem acquire_success_iff_quorum (ctx : GoContext) (key : String) (arrivals : List Bool)
    (hd : ctx.hasDeadline = true) (hn : 1 ≤ arrivals.length) :
    (Acquire ctx key arrivals MainEvent.doneFired = none ↔
      quorum arrivals.length ≤ countTrue arrivals) ∧
    (countTrue arrivals < quorum arrivals.length →
      Acquire ctx key arrivals MainEvent.doneFired = some GoErr.errUnableToAcquireLock) := by
  have h0 : (0 : Nat) < quorum arrivals.length := Nat.succ_pos _
  have hobs := observerRun_eq_min (quorum arrivals.length) arrivals 0 h0
  have hguard : ¬ (ctx.hasDeadline = false) := by rw [hd]; simp
  have hmain : Acquire ctx key arrivals MainEvent.doneFired
      = (if quorum arrivals.length ≤ countTrue arrivals then none
         else some GoErr.errUnableToAcquireLock) := by
    simp only [Acquire, if_neg hguard]
    rw [hobs]
    by_cases hq : quorum arrivals.length ≤ countTrue arrivals
    · rw [if_pos (by omega), if_pos hq]
    · rw [if_neg (by omega), if_neg hq]
  rw [hmain]
  by_cases hq : quorum arrivals.length ≤ countTrue arrivals
  · rw [if_pos hq]
    exact ⟨⟨fun _ => hq, fun _ => rfl⟩, fun hlt => absurd hq (by omega)⟩
  · rw [if_neg hq]
    exact ⟨⟨fun h => Option.noConfusion h, fun h => absurd h hq⟩, fun _ => rfl⟩

/-- Witness for C1: a concrete completed round over N = 3 endpoints of
which 2 ≥ quorum accepted, returning nil. -/
theorem acquire_success_iff_quorum_w :
    (GoContext.mk true).hasDeadline = true ∧
    1 ≤ ([true, false, true] : List Bool).length ∧
    Acquire (GoContext.mk true) "k" [true, false, true] MainEvent.doneFired = none :=
  ⟨rfl, by decide,
    (acquire_success_iff_quorum (GoContext.mk true) "k" [true, false, true] rfl
      (by decide)).1.mpr (by decide)⟩

/-- C2: the constructor `New` never terminates, for every client count
and lease duration: it blocks forever sending the first of its ten
permits into the unbuffered `requestSem` channel, which has no
receiver, so no coordinator with a ten-permit gate is ever returned. -/
theorem new_constructor_never_returns : ∀ (n d : Nat), New n d = none := by
  intro n d
  rfl

/-- C3: a fully drained, uncancelled `Release` round over N = 5
endpoints that all report an actual deletion (5 ≥ quorum = 3) can still
return `ErrUnableToReleaseLock`: the workers' tally overshoots the
quorum and the main loop's equality test `releasedCount == quorum`
fails.  The final state confirms the round drained (all five workers
returned, the waiter ran, `done` closed exactly once). -/
theorem release_quorum_reached_but_error :
    countTrue [true, true, true, true, true] = 5 ∧
    quorum 5 = 3 ∧
    Release (GoContext.mk true) "k" [true, true, true, true, true] overshootSched
      = (some (some GoErr.errUnableToReleaseLock), 5) ∧
    (relRun [true, true, true, true, true] overshootSched).wgDone = 5 ∧
    (relRun [true, true, true, true, true] overshootSched).waiterDone = true ∧
    (relRun [true, true, true, true, true] overshootSched).doneCloses = 1 := by
  decide

/-- C4: with a context that carries no deadline, `Acquire` and
`Release` both return `ErrContextWithDeadlineNeeded` synchronously and
issue zero store operations, for every key, outcome vector and
schedule. -/
theorem no_deadline_config_error_and_zero_store_calls
    (ctx : GoContext) (key : String) (arrivals delRes : List Bool)
    (ev : MainEvent) (sched : List RelLabel) (h : ctx.hasDeadline = false) :
    Acquire ctx key arrivals ev = some GoErr.errContextWithDeadlineNeeded ∧
    acquireStoreCalls ctx arrivals.length = 0 ∧
    Release ctx key delRes sched = (some (some GoErr.errContextWithDeadlineNeeded), 0) := by
  refine ⟨?_, ?_, ?_⟩ <;> simp [Acquire, acquireStoreCalls, Release, h]

/-- Witness for C4: a concrete deadline-less context. -/
theorem no_deadline_config_error_and_zero_store_calls_w :
    (GoContext.mk false).hasDeadline = false ∧
    Acquire (GoContext.mk false) "k" [true] MainEvent.doneFired
      = some GoErr.errContextWithDeadlineNeeded :=
  ⟨rfl, (no_deadline_config_error_and_zero_store_calls (GoContext.mk false) "k" [true] [true]
    MainEvent.doneFired [] rfl).1⟩

/-- C5: the completion signal can fire twice in an uncancelled
`Release` round: over three endpoints that all report a deletion, after
two workers reach quorum and close `done`, the third worker's
post-permit pre-check sees the tally equal to the quorum and executes
`close(done)` again (`doneCloses = 2`, a close of an already-closed
channel). -/
theorem done_closed_twice_reachable :
    countTrue [true, true, true] = 3 ∧
    quorum 3 = 2 ∧
    (relRun [true, true, true] lateWorkerSched).doneCloses = 2 := by
  decide

/-- C6: a `Release` round can drain fully with a worker that acquired a
gate permit never releasing it: the quorum-reaching worker returns
straight after `close(done)`, skipping the permit send, leaving the
gate one permit short after the round (`requestSem = 9` of 10) even
though every worker finished and the waiter ran. -/
theorem worker_keeps_permit_reachable :
    (relRun [true, true, true] leakSched).workers
      = [WPhase.finished true, WPhase.finished false, WPhase.finished true] ∧
    (relRun [true, true, true] leakSched).requestSem = maxConcurrencyAllowed - 1 ∧
    (relRun [true, true, true] leakSched).wgDone = 3 ∧
    (relRun [true, true, true] leakSched).waiterDone = true ∧
    (relRun [true, true, true] leakSched).doneCloses = 1 := by
  decide

/-- C7: the quorum threshold used by `Acquire` and `Release` is exactly
the integer majority `⌊N/2⌋ + 1` — it is the least count strictly
greater than half the fleet — with quorum 2 for N = 3 and quorum 3 for
both N = 4 and N = 5. -/
theorem quorum_is_integer_majority :
    (∀ n : Nat, quorum n = n / 2 + 1 ∧ n < 2 * quorum n ∧ 2 * quorum n ≤ n + 2) ∧
    quorum 3 = 2 ∧ quorum 4 = 3 ∧ quorum 5 = 3 := by
  refine ⟨fun n => ⟨rfl, ?_, ?_⟩, rfl, rfl, rfl⟩ <;>
    · unfold quorum
      omega

/-- C8: when the context's done channel fires before the round's
completion signal, `Acquire` returns the context's own error
(`ctx.Err()`, deadline-exceeded or cancelled) verbatim, and that error
is never `ErrUnableToAcquireLock`. -/
theorem acquire_ctx_error_verbatim (ctx : GoContext) (key : String)
    (arrivals : List Bool) (e : CtxErr) (hd : ctx.hasDeadline = true) :
    Acquire ctx key arrivals (MainEvent.ctxDone e) = some e.toGoErr ∧
    e.toGoErr ≠ GoErr.errUnableToAcquireLock := by
  constructor
  · simp [Acquire, hd]
  · cases e <;> simp [CtxErr.toGoErr]

/-- Witness for C8: a concrete round whose deadline elapses first. -/
theorem acquire_ctx_error_verbatim_w :
    (GoContext.mk true).hasDeadline = true ∧
    Acquire (GoContext.mk true) "k" [true, true, true]
      (MainEvent.ctxDone CtxErr.deadlineExceeded) = some GoErr.deadlineExceeded :=
  ⟨rfl, (acquire_ctx_error_verbatim (GoContext.mk true) "k" [true, true, true]
    CtxErr.deadlineExceeded rfl).1⟩

/-- C10: with zero endpoints and a deadline-carrying, unexpired
context, `Acquire` returns `ErrUnableToAcquireLock` (quorum is 1 and
the tally stays 0), and a `Release` round, under every interleaving,
either has not yet returned or returns `ErrUnableToReleaseLock` —
never nil; the waiter-then-main schedule completes immediately with
that error. -/
theorem zero_endpoints_never_nil :
    (∀ (ctx : GoContext) (key : String), ctx.hasDeadline = true →
      Acquire ctx key [] MainEvent.doneFired = some GoErr.errUnableToAcquireLock) ∧
    (∀ sched : List RelLabel,
      (relRun [] sched).result = none ∨
      (relRun [] sched).result = some (some GoErr.errUnableToReleaseLock)) ∧
    (relRun [] [RelLabel.waiter, RelLabel.mainSel]).result
      = some (some GoErr.errUnableToReleaseLock) := by
  refine ⟨?_, ?_, by decide⟩
  · intro ctx key h
    simp [Acquire, h, observerRun, quorum]
  · intro sched
    exact relFold_nil_inv sched (relInit 0) rfl rfl (by decide) (Or.inl rfl)

/-- Witness for C10: the concrete zero-endpoint round. -/
theorem zero_endpoints_never_nil_w :
    Acquire (GoContext.mk true) "k" [] MainEvent.doneFired
      = some GoErr.errUnableToAcquireLock :=
  zero_endpoints_never_nil.1 (GoContext.mk true) "k" rfl

/-- C9: the result of a completed, uncancelled `Release` round is not a
function of the multiset of per-endpoint outcomes: over the same three
endpoints all reporting a deletion, one interleaving returns
`ErrUnableToReleaseLock` while another returns nil — the decision
depends on when the main loop reads the tally, not only on the count of
successes. -/
theorem release_not_order_insensitive :
    (relRun [true, true, true] orderSchedErr).result
      = some (some GoErr.errUnableToReleaseLock) ∧
    (relRun [true, true, true] orderSchedOk).result = some none ∧
    (relRun [true, true, true] orderSchedErr).doneCloses = 1 ∧
    (relRun [true, true, true] orderSchedOk).doneCloses = 1 ∧
    (relRun [true, true, true] orderSchedErr).wgDone = 3 ∧
    (relRun [true, true, true] orderSchedOk).wgDone = 3 := by
  decide

